import Mathlib

/-!
Verification development for `seqgrep.py`, a grep-like filter for biological
sequence files.  The script is shallowly embedded below:

* `splitext`, `guess_seqformat` model `os.path.splitext` (POSIX rules) and the
  extension-to-format dictionary lookup of `guess_seqformat` (source lines 38-69);
* `SeqRecord`, `resolve_target`, `print_match_decision`, `process_record`,
  `process_records`, `run_files`, `run_compiled`, `run` model the `main`
  function (source lines 109-202), with the external collaborators abstracted:
  the regular-expression engine (`re`) becomes a match predicate passed as a
  parameter, and the format parser (`Bio.SeqIO`) becomes a map from file names
  to the records the parser yields for them;
* `process_file_events` models the open/close/abort behaviour of the per-file
  handle management (source lines 153-160 and 201-202).

Python strings are embedded as `String` (ASCII assumed for lowercasing).
-/

/-- Python `s[1:]` on a text string. -/
def pyTail (s : String) : String := ⟨s.data.drop 1⟩

/-- Python `s.lower()` restricted to ASCII (all extensions compared by the
script are ASCII). -/
def pyLower (s : String) : String := ⟨s.data.map Char.toLower⟩

/-- Helper for `splitext`: scanning left from the character just before the
candidate extension dot (the list is the reversed remainder of the file name),
does a character other than `'.'` occur before a `'/'` or the string start?
This is `os.path.splitext`'s "skip all leading dots" check: a basename that is
all dots up to the last dot has no extension. -/
def hasNonDotBeforeSep : List Char → Bool
  | [] => false
  | c :: cs =>
    if c = '/' then false
    else if c = '.' then hasNonDotBeforeSep cs
    else true

/-- Helper for `splitext`: the input is the reversed file name, `acc` the
characters already passed (in original order).  Returns the extension
(including its dot) when one exists: the suffix from the last `'.'`, provided
no `'/'` occurs after that dot and the basename is not all dots before it. -/
def findExtRev : List Char → List Char → Option (List Char)
  | [], _ => none
  | c :: cs, acc =>
    if c = '/' then none
    else if c = '.' then (if hasNonDotBeforeSep cs then some (c :: acc) else none)
    else findExtRev cs (c :: acc)

/-- `os.path.splitext` (POSIX: separator `'/'`, extension separator `'.'`):
splits `p` into root and extension, where the extension starts at the last dot
of the last path component unless that component's leading characters up to the
dot are all dots. -/
def splitext (p : String) : String × String :=
  match findExtRev p.data.reverse [] with
  | some ext => (⟨p.data.take (p.data.length - ext.length)⟩, ⟨ext⟩)
  | none => (p, "")

/-- The `ext_to_fmt_table` dictionary of `guess_seqformat` (source lines
47-60), as a finite map: `some` is a successful dictionary lookup, `none` is a
`KeyError`. -/
def ext_to_fmt_table (fext : String) : Option String :=
  if fext = "aln" then some "clustal"
  else if fext = "embl" then some "embl"
  else if fext = "fasta" then some "fasta"
  else if fext = "fa" then some "fasta"
  else if fext = "genbank" then some "genbank"
  else if fext = "gb" then some "genbank"
  else if fext = "phylip" then some "phylip"
  else if fext = "phy" then some "phylip"
  else if fext = "ph" then some "phylip"
  else if fext = "pir" then some "pir"
  else if fext = "stockholm" then some "stockholm"
  else if fext = "st" then some "stockholm"
  else if fext = "stk" then some "stockholm"
  else none

/-- `guess_seqformat` (source lines 38-69): take the extension of the file
name via `os.path.splitext`, strip the dot, lowercase, look it up in the
table; a `KeyError` yields the default `"fasta"`. -/
def guess_seqformat (fseq : String) : String :=
  match ext_to_fmt_table (pyLower (pyTail (splitext fseq).2)) with
  | some fmt => fmt
  | none => "fasta"

/-- The final extension of a file name (without its dot), as computed by
`os.path.splitext`; `""` when the name has no extension. -/
def final_extension (fseq : String) : String := pyTail (splitext fseq).2

/-- The spec's filename-to-format table, transcribed from its words: the
thirteen-entry mapping applied to the final extension, compared
case-insensitively, with `"fasta"` for an unmatched or missing extension. -/
def spec_format_of_ext (e : String) : String :=
  if pyLower e = "aln" then "clustal"
  else if pyLower e = "embl" then "embl"
  else if pyLower e = "fasta" then "fasta"
  else if pyLower e = "fa" then "fasta"
  else if pyLower e = "genbank" then "genbank"
  else if pyLower e = "gb" then "genbank"
  else if pyLower e = "phylip" then "phylip"
  else if pyLower e = "phy" then "phylip"
  else if pyLower e = "ph" then "phylip"
  else if pyLower e = "pir" then "pir"
  else if pyLower e = "stockholm" then "stockholm"
  else if pyLower e = "st" then "stockholm"
  else if pyLower e = "stk" then "stockholm"
  else "fasta"

/-- A parsed sequence record as yielded by the external parser (`Bio.SeqIO`):
its `id`, its `description` (for FASTA-family formats this includes the id as
its first word), and `seq`, the stringified sequence residues (`str` of the
parser's sequence object). -/
structure SeqRecord where
  id : String
  description : String
  seq : String
deriving DecidableEq

/-- The resolved command-line options of `main` (the `--verbose`/`--debug`
flags only change the log level on the diagnostic stream and are omitted from
the stdout model). -/
structure Opts where
  search_in : String
  revcomp : Bool
  ignore_case : Bool
  invert_match : Bool
deriving DecidableEq

/-- The environment the script reads: which paths exist on disk, and the
records the external parser (`Bio.SeqIO.parse`, an abstracted collaborator)
yields for each file name (the format passed to the parser is itself a
function of the file name, so this map is well defined).  `"-"` stands for
standard input. -/
structure FileSys where
  fileExists : String → Bool
  records : String → List SeqRecord

/-- IUPAC nucleotide complement.  Modelled from the spec: `Bio.Seq`'s
`reverse_complement` is an external collaborator; the spec prescribes the
standard IUPAC complement rules for A/C/G/T/U/N and the ambiguity codes (`U`
is complemented like `T`; case is preserved; characters with no defined
complement are left unchanged). -/
def iupac_complement (c : Char) : Char :=
  if c = 'A' then 'T' else if c = 'C' then 'G'
  else if c = 'G' then 'C' else if c = 'T' then 'A'
  else if c = 'U' then 'A' else if c = 'M' then 'K'
  else if c = 'R' then 'Y' else if c = 'W' then 'W'
  else if c = 'S' then 'S' else if c = 'Y' then 'R'
  else if c = 'K' then 'M' else if c = 'V' then 'B'
  else if c = 'H' then 'D' else if c = 'D' then 'H'
  else if c = 'B' then 'V' else if c = 'N' then 'N'
  else if c = 'X' then 'X'
  else if c = 'a' then 't' else if c = 'c' then 'g'
  else if c = 'g' then 'c' else if c = 't' then 'a'
  else if c = 'u' then 'a' else if c = 'm' then 'k'
  else if c = 'r' then 'y' else if c = 'w' then 'w'
  else if c = 's' then 's' else if c = 'y' then 'r'
  else if c = 'k' then 'm' else if c = 'v' then 'b'
  else if c = 'h' then 'd' else if c = 'd' then 'h'
  else if c = 'b' then 'v' else if c = 'n' then 'n'
  else if c = 'x' then 'x'
  else c

/-- Reverse complement of a nucleotide string: complement every character and
reverse (models `str(Seq(pattern_arg).reverse_complement())`, source line
131). -/
def reverse_complement (s : String) : String :=
  ⟨(s.data.map iupac_complement).reverse⟩

/-- The string handed to the regular-expression compiler (source lines
129-141): the literal first positional argument, reverse-complemented first
when `--revcomp` is set. -/
def compiled_pattern_src (revcomp : Bool) (pattern_arg : String) : String :=
  if revcomp then reverse_complement pattern_arg else pattern_arg

/-- Target resolution for one record (source lines 170-181): search in the
stringified sequence for `-s seq`; for `-s id` use the full description when
the format is fasta and the bare id otherwise; any other `search_in` value
raises `ValueError` (`none`). -/
def resolve_target (search_in : String) (fmt : String) (r : SeqRecord) : Option String :=
  if search_in = "seq" then some r.seq
  else if search_in = "id" then
    (if fmt = "fasta" then some r.description else some r.id)
  else none

/-- The print decision (source lines 185-190): `print_match` starts `False`,
becomes `True` if the search matched and `--invert-match` is unset, or if
`--invert-match` is set and the search did not match. -/
def print_match_decision (is_match : Bool) (invert_match : Bool) : Bool :=
  if is_match && !invert_match then true
  else if invert_match && !is_match then true
  else false

/-- The filename prefix put on every output line of a matching record (source
lines 194-196): empty unless `print_file_prefix` was set for the run, in which
case it is the file name followed by a colon. -/
def file_pfx (print_file_pfx : Bool) (fseq : String) : String :=
  if print_file_pfx then fseq ++ ":" else ""

/-- Processing of one record (source lines 167-200): resolve the target
(`Except.error` models the uncaught `ValueError` of line 180), test the
compiled pattern, and emit the record's two output lines when the decision is
to print (the single `print` of lines 198/200 writes `prefix + ">" + header`,
a newline, then `prefix + sequence`; `header` is the description for fasta and
the id otherwise).  `search` is the compiled pattern's search, already fixed
for the run. -/
def process_record (search : String → Bool) (search_in : String)
    (invert_match : Bool) (fmt : String) (pfx : String) (r : SeqRecord) :
    Except String (List String) :=
  match resolve_target search_in fmt r with
  | none => Except.error "internal error...not sure where to search in"
  | some target =>
    if print_match_decision (search target) invert_match then
      Except.ok
        (if fmt = "fasta" then
          [pfx ++ ">" ++ r.description, pfx ++ r.seq]
        else
          [pfx ++ ">" ++ r.id, pfx ++ r.seq])
    else Except.ok []

/-- The record loop of one file: the emitted lines in order, paired with
`true` when a record raised (an uncaught exception aborts the loop; lines
already printed stay printed). -/
def process_records (search : String → Bool) (search_in : String)
    (invert_match : Bool) (fmt : String) (pfx : String) :
    List SeqRecord → List String × Bool
  | [] => ([], false)
  | r :: rs =>
    match process_record search search_in invert_match fmt pfx r with
    | Except.error _ => ([], true)
    | Except.ok ls =>
      match process_records search search_in invert_match fmt pfx rs with
      | (rest, ab) => (ls ++ rest, ab)

/-- The format actually passed to the parser for a file (source lines
162-164): the guess, with a falsy (empty) guess replaced by `"fasta"`. -/
def file_fmt (fseq : String) : String :=
  if guess_seqformat fseq = "" then "fasta" else guess_seqformat fseq

/-- The file loop of `main` (source lines 153-202): per file, guess the
format, process its records with the per-run prefix flag, and stop at the
first uncaught exception (keeping the lines printed up to it). -/
def run_files (search : String → Bool) (opts : Opts) (print_file_pfx : Bool)
    (fs : FileSys) : List String → List String × Bool
  | [] => ([], false)
  | fseq :: rest =>
    match process_records search opts.search_in opts.invert_match
        (file_fmt fseq) (file_pfx print_file_pfx fseq) (fs.records fseq) with
    | (ls, true) => (ls, true)
    | (ls, false) =>
      match run_files search opts print_file_pfx fs rest with
      | (ls2, ab2) => (ls ++ ls2, ab2)

/-- The run after the pattern has been compiled (source lines 144-202):
fail-fast existence check over all listed non-stdin files (exit 1, nothing
printed), then set `print_file_prefix` iff more than one file was listed, then
the file loop.  Result: (exit status, stdout lines); an uncaught exception
exits with status 1. -/
def run_compiled (search : String → Bool) (opts : Opts)
    (seqfiles_arg : List String) (fs : FileSys) : Nat × List String :=
  if seqfiles_arg.any (fun f => (f != "-") && !(fs.fileExists f)) then (1, [])
  else
    match run_files search opts (decide (1 < seqfiles_arg.length)) fs seqfiles_arg with
    | (lines, aborted) => (if aborted then 1 else 0, lines)

/-- The whole of `main` (source lines 109-202) as (exit status, stdout lines).
`matchFn pattern ignore_case target` abstracts the `re` collaborator: whether
`re.compile(pattern, [re.IGNORECASE]).search(target)` finds a match.  With
fewer than two positional arguments `parser.error` prints the usage message on
the diagnostic stream and exits the process with status 2 (optparse's
documented behaviour; the `sys.exit(1)` on source line 125 is therefore never
reached).  Otherwise the pattern is built once — reverse-complemented first
when `--revcomp` is set — compiled once, and the run proceeds on `args[1:]`. -/
def run (matchFn : String → Bool → String → Bool) (opts : Opts)
    (args : List String) (fs : FileSys) : Nat × List String :=
  if args.length < 2 then (2, [])
  else
    run_compiled
      (matchFn (compiled_pattern_src opts.revcomp (args.headD "")) opts.ignore_case)
      opts (args.drop 1) fs

/-- Resource events of the per-file handle management. -/
inductive FEvent where
  | openF (name : String)
  | parseAbort (name : String)
  | closeF (name : String)
deriving DecidableEq

/-- Handle lifecycle for one input file (source lines 153-160 and 201-202):
for a non-stdin file a handle is opened (`gzip.open` or `open`); iterating
`SeqIO.parse` may raise mid-stream (`parse_raises`), in which case the
exception propagates — there is no `try`/`finally` — and control never
reaches line 201; on normal exhaustion the handle is closed unless it is
standard input. -/
def process_file_events (fseq : String) (parse_raises : Bool) : List FEvent :=
  (if fseq = "-" then [] else [FEvent.openF fseq]) ++
    (if parse_raises then [FEvent.parseAbort fseq]
     else if fseq = "-" then [] else [FEvent.closeF fseq])

/-- C1: a record whose target resolves is never aborted on, and its output is
nonempty exactly when the pattern search result differs from the
`--invert-match` flag: printed iff `is_match XOR invert_match`, never both
printed and suppressed. -/
theorem record_printed_iff_match_xor_invert (search : String → Bool)
    (search_in : String) (invert : Bool) (fmt pfx : String) (r : SeqRecord)
    (target : String) (h : resolve_target search_in fmt r = some target) :
    ∃ ls, process_record search search_in invert fmt pfx r = Except.ok ls ∧
      (ls ≠ [] ↔ Bool.xor (search target) invert = true) := by
  unfold process_record
  rw [h]
  cases hs : search target <;> cases invert <;>
    simp [print_match_decision, hs] <;> split <;> simp

/-- Witness for C1: a concrete fasta record whose description matches, with
`--invert-match` unset, yields nonempty output. -/
theorem record_printed_iff_match_xor_invert_witness :
    ∃ ls, process_record (fun t => t == "s1 d") "id" false "fasta" ""
        ⟨"s1", "s1 d", "ACGT"⟩ = Except.ok ls ∧
      (ls ≠ [] ↔ Bool.xor ((fun t => t == "s1 d") "s1 d") false = true) :=
  record_printed_iff_match_xor_invert (fun t => t == "s1 d") "id" false
    "fasta" "" ⟨"s1", "s1 d", "ACGT"⟩ "s1 d" (by decide)

/-- C2: with `-s id` the match target is the full description when the guessed
format is fasta and the bare id for every other format; with `-s seq` it is
the stringified sequence. -/
theorem search_target_selection (fseq : String) (r : SeqRecord) :
    resolve_target "id" (guess_seqformat fseq) r =
      some (if guess_seqformat fseq = "fasta" then r.description else r.id) ∧
    resolve_target "seq" (guess_seqformat fseq) r = some r.seq := by
  unfold resolve_target
  constructor
  · rw [if_neg (by decide : ¬("id" : String) = "seq"), if_pos rfl]
    by_cases hf : guess_seqformat fseq = "fasta" <;> simp [hf]
  · rw [if_pos rfl]

/-- C3: the format guess is exactly the spec's thirteen-entry table applied
case-insensitively to the file name's final extension, with `"fasta"` for an
unmatched or missing extension. -/
theorem guess_seqformat_matches_spec_table (fseq : String) :
    guess_seqformat fseq = spec_format_of_ext (final_extension fseq) := by
  unfold guess_seqformat spec_format_of_ext final_extension
  generalize pyLower (pyTail (splitext fseq).2) = z
  unfold ext_to_fmt_table
  by_cases h1 : z = "aln"
  · subst h1; decide
  simp only [if_neg h1]
  by_cases h2 : z = "embl"
  · subst h2; decide
  simp only [if_neg h2]
  by_cases h3 : z = "fasta"
  · subst h3; decide
  simp only [if_neg h3]
  by_cases h4 : z = "fa"
  · subst h4; decide
  simp only [if_neg h4]
  by_cases h5 : z = "genbank"
  · subst h5; decide
  simp only [if_neg h5]
  by_cases h6 : z = "gb"
  · subst h6; decide
  simp only [if_neg h6]
  by_cases h7 : z = "phylip"
  · subst h7; decide
  simp only [if_neg h7]
  by_cases h8 : z = "phy"
  · subst h8; decide
  simp only [if_neg h8]
  by_cases h9 : z = "ph"
  · subst h9; decide
  simp only [if_neg h9]
  by_cases h10 : z = "pir"
  · subst h10; decide
  simp only [if_neg h10]
  by_cases h11 : z = "stockholm"
  · subst h11; decide
  simp only [if_neg h11]
  by_cases h12 : z = "st"
  · subst h12; decide
  simp only [if_neg h12]
  by_cases h13 : z = "stk"
  · subst h13; decide
  simp only [if_neg h13]

/-- C4: when some listed non-stdin file does not exist, the run exits with
status 1 and prints nothing, regardless of the other files. -/
theorem missing_file_aborts_run (matchFn : String → Bool → String → Bool)
    (opts : Opts) (args : List String) (fs : FileSys) (f : String)
    (hlen : 2 ≤ args.length) (hmem : f ∈ args.drop 1) (hne : f ≠ "-")
    (hmiss : fs.fileExists f = false) :
    run matchFn opts args fs = (1, []) := by
  unfold run
  rw [if_neg (not_lt.mpr hlen)]
  unfold run_compiled
  rw [if_pos (List.any_eq_true.mpr ⟨f, hmem, by simp [hne, hmiss]⟩)]

/-- Witness for C4: one existing and one missing file give exit 1 and no
output. -/
theorem missing_file_aborts_run_witness :
    run (fun _ _ _ => true) ⟨"id", false, false, false⟩
      ["p", "good.fa", "missing.fa"]
      ⟨fun f => f == "good.fa", fun _ => [⟨"a", "a d", "C"⟩]⟩ = (1, []) :=
  missing_file_aborts_run (fun _ _ _ => true) ⟨"id", false, false, false⟩
    ["p", "good.fa", "missing.fa"]
    ⟨fun f => f == "good.fa", fun _ => [⟨"a", "a d", "C"⟩]⟩ "missing.fa"
    (by decide) (by decide) (by decide) (by decide)

/-- C5 (code behaviour at the failing input): with only one positional
argument — a pattern but no file — `parser.error` prints the usage message
and exits the process with status 2, not 1: the `sys.exit(1)` after it is
dead code.  Nothing is written to standard output. -/
theorem usage_error_exits_with_status_two :
    run (fun _ _ _ => false) ⟨"id", false, false, false⟩ ["ACGT"]
      ⟨fun _ => false, fun _ => []⟩ = (2, []) := rfl

/-- C6: with `--revcomp` set, the whole run equals the run whose single
compiled search predicate is the match function applied to the IUPAC
reverse-complement of the literal first positional argument: the transform is
applied exactly once, before the pattern is compiled and before any file is
consulted, independently of per-record processing. -/
theorem revcomp_applied_once_before_files (matchFn : String → Bool → String → Bool)
    (opts : Opts) (args : List String) (fs : FileSys)
    (hrev : opts.revcomp = true) (hlen : 2 ≤ args.length) :
    run matchFn opts args fs =
      run_compiled (matchFn (reverse_complement (args.headD "")) opts.ignore_case)
        opts (args.drop 1) fs := by
  unfold run compiled_pattern_src
  rw [if_neg (not_lt.mpr hlen), hrev]
  simp

/-- Witness for C6: the pattern `"AACG"` is compiled as its reverse
complement `"CGTT"` for the whole run. -/
theorem revcomp_applied_once_before_files_witness :
    run (fun p _ t => p == t) ⟨"id", true, false, false⟩ ["AACG", "x.fa"]
        ⟨fun _ => true, fun _ => [⟨"s1", "s1 d", "CGTT"⟩]⟩ =
      run_compiled ((fun p _ t => (p == t : Bool)) (reverse_complement "AACG") false)
        ⟨"id", true, false, false⟩ ["x.fa"]
        ⟨fun _ => true, fun _ => [⟨"s1", "s1 d", "CGTT"⟩]⟩ :=
  revcomp_applied_once_before_files (fun p _ t => p == t)
    ⟨"id", true, false, false⟩ ["AACG", "x.fa"]
    ⟨fun _ => true, fun _ => [⟨"s1", "s1 d", "CGTT"⟩]⟩ rfl (by decide)

/-- C7: a matching record emits exactly the two lines
`prefix ++ ">" ++ header` and `prefix ++ sequence`, with the header the
description for fasta and the bare id otherwise; the prefix, applied to both
lines, is empty when exactly one file path was listed for the run and
`filename ++ ":"` when more than one was. -/
theorem matching_record_output_lines (search : String → Bool)
    (search_in : String) (invert : Bool) (fmt : String)
    (seqfiles : List String) (fseq : String) (r : SeqRecord) (target : String)
    (h : resolve_target search_in fmt r = some target)
    (hm : print_match_decision (search target) invert = true) :
    process_record search search_in invert fmt
        (file_pfx (decide (1 < seqfiles.length)) fseq) r =
      Except.ok
        [file_pfx (decide (1 < seqfiles.length)) fseq ++ ">" ++
            (if fmt = "fasta" then r.description else r.id),
          file_pfx (decide (1 < seqfiles.length)) fseq ++ r.seq] ∧
    (seqfiles.length = 1 → file_pfx (decide (1 < seqfiles.length)) fseq = "") ∧
    (1 < seqfiles.length → file_pfx (decide (1 < seqfiles.length)) fseq = fseq ++ ":") := by
  refine ⟨?_, ?_, ?_⟩
  · unfold process_record
    rw [h]
    dsimp only
    rw [if_pos hm]
    by_cases hf : fmt = "fasta" <;> simp [hf]
  · intro h1
    simp [file_pfx, h1]
  · intro h1
    simp [file_pfx, h1]

/-- Witness for C7: a matching fasta record in a two-file run gets both its
lines prefixed with the file name and a colon. -/
theorem matching_record_output_lines_witness :
    process_record (fun t => t == "s1 d") "id" false "fasta"
        (file_pfx (decide (1 < (["a.fa", "b.fa"] : List String).length)) "a.fa")
        ⟨"s1", "s1 d", "ACGT"⟩ =
      Except.ok
        [file_pfx (decide (1 < (["a.fa", "b.fa"] : List String).length)) "a.fa" ++ ">" ++
            (if ("fasta" : String) = "fasta" then "s1 d" else "s1"),
          file_pfx (decide (1 < (["a.fa", "b.fa"] : List String).length)) "a.fa" ++ "ACGT"] ∧
    ((["a.fa", "b.fa"] : List String).length = 1 →
      file_pfx (decide (1 < (["a.fa", "b.fa"] : List String).length)) "a.fa" = "") ∧
    (1 < (["a.fa", "b.fa"] : List String).length →
      file_pfx (decide (1 < (["a.fa", "b.fa"] : List String).length)) "a.fa" = "a.fa" ++ ":") :=
  matching_record_output_lines (fun t => t == "s1 d") "id" false "fasta"
    ["a.fa", "b.fa"] "a.fa" ⟨"s1", "s1 d", "ACGT"⟩ "s1 d" (by decide) (by decide)

/-- Helper: the fail-fast existence scan consults only the existence of the
listed files. -/
theorem any_missing_congr (fs1 fs2 : FileSys) :
    ∀ l : List String, (∀ f ∈ l, fs1.fileExists f = fs2.fileExists f) →
      l.any (fun f => (f != "-") && !(fs1.fileExists f)) =
        l.any (fun f => (f != "-") && !(fs2.fileExists f))
  | [], _ => rfl
  | f :: rest, h => by
    simp only [List.any_cons]
    rw [h f (List.mem_cons_self f rest),
      any_missing_congr fs1 fs2 rest (fun g hg => h g (List.mem_cons_of_mem f hg))]

/-- Helper: the file loop consults only the records of the listed files. -/
theorem run_files_congr (search : String → Bool) (opts : Opts) (ppfx : Bool)
    (fs1 fs2 : FileSys) :
    ∀ l : List String, (∀ f ∈ l, fs1.records f = fs2.records f) →
      run_files search opts ppfx fs1 l = run_files search opts ppfx fs2 l
  | [], _ => rfl
  | fseq :: rest, h => by
    unfold run_files
    rw [h fseq (List.mem_cons_self fseq rest),
      run_files_congr search opts ppfx fs1 fs2 rest
        (fun g hg => h g (List.mem_cons_of_mem fseq hg))]

/-- C9: the filter is deterministic: two runs with the same flags and
arguments, in environments that agree on the existence and parsed content of
the listed files, produce the same exit status and byte-identical standard
output. -/
theorem run_deterministic (matchFn : String → Bool → String → Bool)
    (opts : Opts) (args : List String) (fs1 fs2 : FileSys)
    (hex : ∀ f ∈ args.drop 1, fs1.fileExists f = fs2.fileExists f)
    (hrec : ∀ f ∈ args.drop 1, fs1.records f = fs2.records f) :
    run matchFn opts args fs1 = run matchFn opts args fs2 := by
  unfold run
  by_cases hlen : args.length < 2
  · rw [if_pos hlen, if_pos hlen]
  · rw [if_neg hlen, if_neg hlen]
    unfold run_compiled
    rw [any_missing_congr fs1 fs2 (args.drop 1) hex]
    by_cases hany :
        (args.drop 1).any (fun f => (f != "-") && !(fs2.fileExists f)) = true
    · rw [if_pos hany, if_pos hany]
    · rw [if_neg hany, if_neg hany,
        run_files_congr _ opts _ fs1 fs2 (args.drop 1) hrec]

/-- Witness for C9: two different environments that agree on the one listed
file give identical runs. -/
theorem run_deterministic_witness :
    run (fun _ _ _ => true) ⟨"id", false, false, false⟩ ["p", "x.fa"]
        ⟨fun _ => true, fun f => if f = "x.fa" then [⟨"a", "a d", "C"⟩] else []⟩ =
      run (fun _ _ _ => true) ⟨"id", false, false, false⟩ ["p", "x.fa"]
        ⟨fun _ => true, fun _ => [⟨"a", "a d", "C"⟩]⟩ :=
  run_deterministic (fun _ _ _ => true) ⟨"id", false, false, false⟩ ["p", "x.fa"]
    ⟨fun _ => true, fun f => if f = "x.fa" then [⟨"a", "a d", "C"⟩] else []⟩
    ⟨fun _ => true, fun _ => [⟨"a", "a d", "C"⟩]⟩
    (fun _ _ => rfl)
    (fun f hf => by
      simp only [List.drop, List.mem_singleton] at hf
      subst hf
      rfl)

/-- C10: a file name ending in `.gz` is always guessed as fasta: the guess
looks only at the final extension of the full name, so a format extension
before the `.gz` suffix (as in `x.genbank.gz`) is ignored. -/
theorem gz_suffix_guessed_fasta (stem : String) :
    guess_seqformat (stem ++ ".gz") = "fasta" := by
  have hdata : (stem ++ ".gz").data = stem.data ++ ['.', 'g', 'z'] := rfl
  have hext : findExtRev (stem ++ ".gz").data.reverse [] =
      (if hasNonDotBeforeSep stem.data.reverse then some ['.', 'g', 'z'] else none) := by
    rw [hdata, List.reverse_append]
    simp [findExtRev]
  have h2 : (splitext (stem ++ ".gz")).2 =
      (if hasNonDotBeforeSep stem.data.reverse then (⟨['.', 'g', 'z']⟩ : String)
       else "") := by
    unfold splitext
    rw [hext]
    cases hasNonDotBeforeSep stem.data.reverse <;> simp
  unfold guess_seqformat
  rw [h2]
  cases hasNonDotBeforeSep stem.data.reverse <;> decide

/-- C8 as amended: for every input file the handle is closed after the record
stream is exhausted normally (and the standard-input handle is never closed);
but when parsing raises mid-stream the exception propagates past the close,
which never runs. -/
theorem handle_closed_unless_abort_or_stdin (fseq : String) (parse_raises : Bool) :
    (parse_raises = false →
      FEvent.openF fseq ∈ process_file_events fseq parse_raises →
      FEvent.closeF fseq ∈ process_file_events fseq parse_raises) ∧
    FEvent.closeF "-" ∉ process_file_events fseq parse_raises := by
  unfold process_file_events
  constructor
  · rintro rfl hopen
    by_cases hd : fseq = "-"
    · simp [hd] at hopen
    · simp [hd]
  · by_cases hd : fseq = "-"
    · cases parse_raises <;> simp [hd]
    · cases parse_raises <;> simp [hd, Ne.symm hd]

/-- Witness for C8: a normally exhausted non-stdin file is closed, and a
normally exhausted stdin stream is not. -/
theorem handle_closed_unless_abort_or_stdin_witness :
    FEvent.closeF "x.fa" ∈ process_file_events "x.fa" false ∧
    FEvent.closeF "-" ∉ process_file_events "-" false :=
  ⟨(handle_closed_unless_abort_or_stdin "x.fa" false).1 rfl (by decide),
    (handle_closed_unless_abort_or_stdin "-" false).2⟩

/-- Counterexample to C8 as stated: when parsing raises mid-stream, the
opened handle is never closed (there is no `try`/`finally` around the record
loop). -/
theorem parse_error_skips_close :
    FEvent.openF "x.fa" ∈ process_file_events "x.fa" true ∧
    FEvent.closeF "x.fa" ∉ process_file_events "x.fa" true := by decide
